import Mathlib

/-!
Shallow embedding of the virtual try-on face-tracking pipeline:
the transform extractor (face.js), the temporal smoother and frame
driver (main.js), and the perspective compositor (render.js).
Coordinates, distances and times are modelled as real numbers.
-/

namespace VirtualTryon

noncomputable section

/-- A face keypoint: 2D position plus optional depth value, mirroring the
JS objects `{x, y, z?}` where `z` may be `undefined`. -/
structure Pt where
  x : ℝ
  y : ℝ
  z : Option ℝ

/-- Default point used for list indexing out of range (the claims always
supply lists long enough that it is never reached). -/
def pt0 : Pt := ⟨0, 0, none⟩

/-- Embeds `midpoint(a, b)` from face.js: componentwise average, with the
depth averaged only when both operands carry one. -/
def midpoint (a b : Pt) : Pt :=
  { x := (a.x + b.x) / 2
    y := (a.y + b.y) / 2
    z := match a.z, b.z with
         | some az, some bz => some ((az + bz) / 2)
         | _, _ => none }

/-- Embeds `dist(a, b) = Math.hypot(a.x - b.x, a.y - b.y)` from face.js. -/
def dist (a b : Pt) : ℝ :=
  Real.sqrt ((a.x - b.x) ^ 2 + (a.y - b.y) ^ 2)

/-- Embeds `clamp(v, lo, hi) = Math.max(lo, Math.min(hi, v))` from face.js. -/
def clamp (v lo hi : ℝ) : ℝ := max lo (min hi v)

/-- Embeds JS `Math.atan2(y, x)` as the argument of the complex number
`x + y i` (both return the angle in `(-π, π]`, and both send `(0,0)` to 0). -/
def atan2 (y x : ℝ) : ℝ := Complex.arg ⟨x, y⟩

-- Key landmark indices of the MediaPipe FaceMesh topology (the LM table in face.js).
namespace LM

def LEFT_EYE_OUTER : Nat := 33

def LEFT_EYE_INNER : Nat := 133

def RIGHT_EYE_INNER : Nat := 362

def RIGHT_EYE_OUTER : Nat := 263

def LEFT_IRIS : Nat := 468

def RIGHT_IRIS : Nat := 473

def NOSE_TIP : Nat := 1

def LEFT_FACE_EDGE : Nat := 234

def RIGHT_FACE_EDGE : Nat := 454

end LM

/-- Output record of `extractFaceTransform` in face.js. -/
structure FaceTransform where
  center : Pt
  leftEye : Pt
  rightEye : Pt
  eyeDistance : ℝ
  roll : ℝ
  yaw : ℝ
  keypoints : List Pt

/-- Embeds `extractFaceTransform(keypoints)` from face.js: eye selection by
topology length, midpoint center, Euclidean eye distance, atan2 roll, the
edge-ratio yaw with its positivity guard, the optional depth blend, and the
final clamp of yaw to [-1, 1]. -/
def extractFaceTransform (keypoints : List Pt) : FaceTransform :=
  let leftEye : Pt :=
    if 473 < keypoints.length then keypoints.getD LM.LEFT_IRIS pt0
    else midpoint (keypoints.getD LM.LEFT_EYE_OUTER pt0) (keypoints.getD LM.LEFT_EYE_INNER pt0)
  let rightEye : Pt :=
    if 473 < keypoints.length then keypoints.getD LM.RIGHT_IRIS pt0
    else midpoint (keypoints.getD LM.RIGHT_EYE_INNER pt0) (keypoints.getD LM.RIGHT_EYE_OUTER pt0)
  let center := midpoint leftEye rightEye
  let eyeDistance := dist leftEye rightEye
  let roll := atan2 (rightEye.y - leftEye.y) (rightEye.x - leftEye.x)
  let noseTip := keypoints.getD LM.NOSE_TIP pt0
  let leftEdge := keypoints.getD LM.LEFT_FACE_EDGE pt0
  let rightEdge := keypoints.getD LM.RIGHT_FACE_EDGE pt0
  let dLeft := dist noseTip leftEdge
  let dRight := dist noseTip rightEdge
  let yaw0 : ℝ := if 0 < dLeft + dRight then (dLeft - dRight) / (dLeft + dRight) else 0
  let yaw1 : ℝ :=
    match leftEye.z, rightEye.z with
    | some lz, some rz => yaw0 * 0.55 + (rz - lz) / max (eyeDistance * 0.5) 1 * 0.45
    | _, _ => yaw0
  { center := center
    leftEye := leftEye
    rightEye := rightEye
    eyeDistance := eyeDistance
    roll := roll
    yaw := clamp yaw1 (-1) 1
    keypoints := keypoints }

/-- The scalar fields persisted by the smoother (`state.smooth` in main.js)
together with the latest raw keypoint reference. -/
structure SmoothState where
  centerX : ℝ
  centerY : ℝ
  eyeDistance : ℝ
  roll : ℝ
  yaw : ℝ
  keypoints : List Pt

/-- The descriptor returned by `buildSmoothed` in main.js. -/
structure Smoothed where
  center : Pt
  eyeDistance : ℝ
  roll : ℝ
  yaw : ℝ
  keypoints : List Pt

/-- Embeds `lerp(a, b, t) = a + (b - a) * t` from main.js. -/
def lerp (a b t : ℝ) : ℝ := a + (b - a) * t

/-- The fixed blend factor `state.smoothingFactor` of main.js; it is
initialised to 0.35 and never reassigned. -/
def smoothingFactor : ℝ := 0.35

/-- Embeds `buildSmoothed(s, keypoints)` from main.js. -/
def buildSmoothed (s : SmoothState) (keypoints : List Pt) : Smoothed :=
  { center := ⟨s.centerX, s.centerY, none⟩
    eyeDistance := s.eyeDistance
    roll := s.roll
    yaw := s.yaw
    keypoints := keypoints }

/-- Embeds `applySmoothing(raw)` from main.js, with the mutable
`state.smooth` passed explicitly (`none` models the empty state after
(re)initialisation) and the blend factor `a` as a parameter; returns the
new persisted state together with the returned smoothed descriptor. -/
def applySmoothing (a : ℝ) (smooth : Option SmoothState) (raw : FaceTransform) :
    SmoothState × Smoothed :=
  match smooth with
  | none =>
      let s : SmoothState :=
        { centerX := raw.center.x
          centerY := raw.center.y
          eyeDistance := raw.eyeDistance
          roll := raw.roll
          yaw := raw.yaw
          keypoints := raw.keypoints }
      (s, buildSmoothed s raw.keypoints)
  | some s =>
      let s2 : SmoothState :=
        { centerX := lerp s.centerX raw.center.x a
          centerY := lerp s.centerY raw.center.y a
          eyeDistance := lerp s.eyeDistance raw.eyeDistance a
          roll := lerp s.roll raw.roll a
          yaw := lerp s.yaw raw.yaw a
          keypoints := raw.keypoints }
      (s2, buildSmoothed s2 raw.keypoints)

/-- State of the smoother after feeding the same raw transform `raw` a
further `n` times starting from the already-seeded state `s0`. -/
def smoothIter (a : ℝ) (raw : FaceTransform) (s0 : SmoothState) : Nat → SmoothState
  | 0 => s0
  | n + 1 => (applySmoothing a (some (smoothIter a raw s0 n)) raw).1

/-- The smoothing state after feeding a whole sequence of raw transforms
through `applySmoothing`, starting from an arbitrary (possibly empty)
state, exactly as successive successful detections do in main.js. -/
def smoothFold (a : ℝ) (st : Option SmoothState) (raws : List FaceTransform) :
    Option SmoothState :=
  raws.foldl (fun acc raw => some (applySmoothing a acc raw).1) st

/-- The grace period `state.faceTimeoutMs` of main.js, in milliseconds. -/
def faceTimeoutMs : ℝ := 500

/-- The throttling window `state.detectionInterval` of main.js. -/
def detectionInterval : Nat := 2

/-- The tracking-relevant application state of main.js. -/
structure AppState where
  smooth : Option SmoothState
  lastFaceTime : ℝ
  lastRawTransform : Option Smoothed

/-- Embeds the state update performed by a completed `runDetection` call in
main.js: `face` is the outcome of `detectFace` (`none` for no face, a
not-ready video, or any detector error) carrying the raw keypoints, and
`now` is `performance.now()` at completion. On `none` nothing is touched;
on success the smoother runs and `lastFaceTime` is stamped. -/
def runDetectionUpdate (st : AppState) (face : Option (List Pt)) (now : ℝ) : AppState :=
  match face with
  | none => st
  | some kp =>
      let raw := extractFaceTransform kp
      let r := applySmoothing smoothingFactor st.smooth raw
      { smooth := some r.1
        lastRawTransform := some r.2
        lastFaceTime := now }

/-- Embeds the overlay-visibility decision of `renderLoop` in main.js: the
glasses are drawn exactly when `state.lastRawTransform` is set and
`now - state.lastFaceTime < state.faceTimeoutMs`, and the drawn pose is
the stored smoothed pose unchanged. Returns the pose handed to
`drawGlasses`, or `none` when the overlay is not drawn at all. -/
def overlayDrawn (st : AppState) (now : ℝ) : Option Smoothed :=
  match st.lastRawTransform with
  | some t => if now - st.lastFaceTime < faceTimeoutMs then some t else none
  | none => none

-- Perspective compositor constants from render.js.

/-- Left lens-centre anchor, as a ratio of the source-image width. -/
def ANCHOR_LEFT_X : ℝ := 0.30

/-- Right lens-centre anchor, as a ratio of the source-image width. -/
def ANCHOR_RIGHT_X : ℝ := 0.70

/-- Lens-row anchor, as a ratio of the source-image height. -/
def ANCHOR_Y : ℝ := 0.45

/-- How much yaw affects the width of each half. -/
def YAW_WIDTH_FACTOR : ℝ := 0.40

/-- How much yaw affects the height of each half. -/
def YAW_HEIGHT_FACTOR : ℝ := 0.12

/-- The geometric quantities `drawGlasses` in render.js computes before
issuing its two draw calls. -/
structure GlassesLayout where
  anchorSpan : ℝ
  baseScale : ℝ
  glassesW : ℝ
  glassesH : ℝ
  halfW : ℝ
  lWidthScale : ℝ
  rWidthScale : ℝ
  lHeightScale : ℝ
  rHeightScale : ℝ
  anchorOffsetY : ℝ
  lw : ℝ
  lh : ℝ
  rw : ℝ
  rh : ℝ

/-- Embeds the arithmetic of `drawGlasses(ctx, halves, transform, glassesImg,
scaleMultiplier, verticalOffset)` from render.js: every scalar it derives
from the pose and the source-image width before drawing. -/
def drawGlasses (transform : Smoothed) (imgWidth imgHeight : ℝ) (scaleMultiplier : ℝ) :
    GlassesLayout :=
  let anchorSpan := (ANCHOR_RIGHT_X - ANCHOR_LEFT_X) * imgWidth
  let baseScale := transform.eyeDistance / anchorSpan * scaleMultiplier
  let glassesW := imgWidth * baseScale
  let glassesH := imgHeight * baseScale
  let halfW := glassesW / 2
  let lWidthScale := 1 + transform.yaw * YAW_WIDTH_FACTOR
  let rWidthScale := 1 - transform.yaw * YAW_WIDTH_FACTOR
  let lHeightScale := 1 + transform.yaw * YAW_HEIGHT_FACTOR
  let rHeightScale := 1 - transform.yaw * YAW_HEIGHT_FACTOR
  let anchorOffsetY := (ANCHOR_Y - 0.5) * glassesH
  { anchorSpan := anchorSpan
    baseScale := baseScale
    glassesW := glassesW
    glassesH := glassesH
    halfW := halfW
    lWidthScale := lWidthScale
    rWidthScale := rWidthScale
    lHeightScale := lHeightScale
    rHeightScale := rHeightScale
    anchorOffsetY := anchorOffsetY
    lw := halfW * lWidthScale
    lh := glassesH * lHeightScale
    rw := halfW * rWidthScale
    rh := glassesH * rHeightScale }

end

/-- The scheduling state of main.js relevant to the in-flight guard: the
module-level flags `modelReady` and `detecting`, `state.running`, the render
tick counter `state.frameCount`, and a ghost counter `inFlight` of detection
calls currently started and not yet completed. -/
structure DetectMachine where
  running : Bool
  modelReady : Bool
  detecting : Bool
  frameCount : Nat
  inFlight : Nat
deriving DecidableEq, Repr

/-- Events of the cooperative scheduler of main.js. -/
inductive MEvent where
  /-- One `renderLoop` tick: increments `frameCount` and, on every
  `detectionInterval`-th tick, calls `runDetection`, whose guard skips the
  request entirely when one is already outstanding. -/
  | tick
  /-- Completion of an outstanding `detectFace` await: the `finally` block
  clears `detecting`. -/
  | complete
  /-- Model finished loading (`modelReady = true` in `init`). -/
  | ready
  /-- The user started the camera (`startCamera` resets `frameCount`). -/
  | start
  /-- The user stopped the camera (`stopCamera` clears `running`). -/
  | stop
deriving DecidableEq, Repr

/-- One scheduler step, embedding the control flow of `renderLoop` and
`runDetection` in main.js. -/
def mstep (m : DetectMachine) : MEvent → DetectMachine
  | .tick =>
      if m.running then
        let fc := m.frameCount + 1
        if fc % detectionInterval = 0 then
          if m.running && m.modelReady && !m.detecting then
            { m with frameCount := fc, detecting := true, inFlight := m.inFlight + 1 }
          else
            { m with frameCount := fc }
        else
          { m with frameCount := fc }
      else m
  | .complete =>
      if m.detecting then
        { m with detecting := false, inFlight := m.inFlight - 1 }
      else m
  | .ready => { m with modelReady := true }
  | .start => { m with running := true, frameCount := 0 }
  | .stop => { m with running := false }

/-- Runs the scheduler over a list of events. -/
def mrun (m : DetectMachine) (es : List MEvent) : DetectMachine :=
  es.foldl mstep m

/-- The initial scheduler state at page load. -/
def minit : DetectMachine :=
  { running := false, modelReady := false, detecting := false, frameCount := 0, inFlight := 0 }

/-- The mutual-exclusion invariant: at most one detection call is in
flight, and the `detecting` flag tracks exactly that. -/
def MutexInv (m : DetectMachine) : Prop :=
  m.inFlight ≤ 1 ∧ (m.detecting = true ↔ m.inFlight = 1)

instance (m : DetectMachine) : Decidable (MutexInv m) := by
  unfold MutexInv; infer_instance

/-! ## Theorems about the embedded pipeline -/

/-- C1: for every keypoint sequence, the extractor's output yaw is
`clamp(y, -1, 1)` where the base estimate is
`(dLeft - dRight) / (dLeft + dRight)` guarded by `dLeft + dRight > 0`
(else 0), blended with the depth signal
`(rightEyeZ - leftEyeZ) / max(eyeDistance * 0.5, 1)` as `y0 * 0.55 +
zYaw * 0.45` exactly when both eye points carry a depth value; moreover
the blend divisor is strictly positive and the base term is the guarded
ratio or literally 0, so neither division divides by zero. -/
theorem extractFaceTransform_yaw_formula (kp : List Pt) :
    let t := extractFaceTransform kp
    let noseTip := kp.getD LM.NOSE_TIP pt0
    let dLeft := dist noseTip (kp.getD LM.LEFT_FACE_EDGE pt0)
    let dRight := dist noseTip (kp.getD LM.RIGHT_FACE_EDGE pt0)
    let y0 : ℝ := if 0 < dLeft + dRight then (dLeft - dRight) / (dLeft + dRight) else 0
    let y : ℝ :=
      match t.leftEye.z, t.rightEye.z with
      | some lz, some rz => y0 * 0.55 + (rz - lz) / max (t.eyeDistance * 0.5) 1 * 0.45
      | _, _ => y0
    t.yaw = clamp y (-1) 1
    ∧ (0 : ℝ) < max (t.eyeDistance * 0.5) 1
    ∧ (0 < dLeft + dRight ∨ y0 = 0) := by
  refine ⟨rfl, lt_max_iff.mpr (Or.inr one_pos), ?_⟩
  by_cases hd : (0 : ℝ) < dist (kp.getD LM.NOSE_TIP pt0) (kp.getD LM.LEFT_FACE_EDGE pt0)
      + dist (kp.getD LM.NOSE_TIP pt0) (kp.getD LM.RIGHT_FACE_EDGE pt0)
  · exact Or.inl hd
  · exact Or.inr (if_neg hd)

/-- C2: the extractor takes the iris centres (indices 468 and 473) as eye
positions exactly when the sequence length indicates iris points, and
otherwise the midpoints of the eye-corner landmarks (33/133 and 362/263);
in both cases the centre is the midpoint of the selected eyes and the eye
distance their Euclidean distance, a well-defined nonnegative real. -/
theorem extractFaceTransform_eye_selection (kp : List Pt) :
    ((473 < kp.length →
        (extractFaceTransform kp).leftEye = kp.getD LM.LEFT_IRIS pt0
        ∧ (extractFaceTransform kp).rightEye = kp.getD LM.RIGHT_IRIS pt0)
      ∧ (¬ 473 < kp.length →
        (extractFaceTransform kp).leftEye
          = midpoint (kp.getD LM.LEFT_EYE_OUTER pt0) (kp.getD LM.LEFT_EYE_INNER pt0)
        ∧ (extractFaceTransform kp).rightEye
          = midpoint (kp.getD LM.RIGHT_EYE_INNER pt0) (kp.getD LM.RIGHT_EYE_OUTER pt0)))
    ∧ (extractFaceTransform kp).center
        = midpoint (extractFaceTransform kp).leftEye (extractFaceTransform kp).rightEye
    ∧ (extractFaceTransform kp).eyeDistance
        = dist (extractFaceTransform kp).leftEye (extractFaceTransform kp).rightEye
    ∧ 0 ≤ (extractFaceTransform kp).eyeDistance := by
  refine ⟨⟨fun h => ⟨?_, ?_⟩, fun h => ⟨?_, ?_⟩⟩, rfl, rfl, ?_⟩
  · show (if 473 < kp.length then kp.getD LM.LEFT_IRIS pt0
        else midpoint (kp.getD LM.LEFT_EYE_OUTER pt0) (kp.getD LM.LEFT_EYE_INNER pt0))
        = kp.getD LM.LEFT_IRIS pt0
    exact if_pos h
  · show (if 473 < kp.length then kp.getD LM.RIGHT_IRIS pt0
        else midpoint (kp.getD LM.RIGHT_EYE_INNER pt0) (kp.getD LM.RIGHT_EYE_OUTER pt0))
        = kp.getD LM.RIGHT_IRIS pt0
    exact if_pos h
  · show (if 473 < kp.length then kp.getD LM.LEFT_IRIS pt0
        else midpoint (kp.getD LM.LEFT_EYE_OUTER pt0) (kp.getD LM.LEFT_EYE_INNER pt0))
        = midpoint (kp.getD LM.LEFT_EYE_OUTER pt0) (kp.getD LM.LEFT_EYE_INNER pt0)
    exact if_neg h
  · show (if 473 < kp.length then kp.getD LM.RIGHT_IRIS pt0
        else midpoint (kp.getD LM.RIGHT_EYE_INNER pt0) (kp.getD LM.RIGHT_EYE_OUTER pt0))
        = midpoint (kp.getD LM.RIGHT_EYE_INNER pt0) (kp.getD LM.RIGHT_EYE_OUTER pt0)
    exact if_neg h
  · show 0 ≤ dist (extractFaceTransform kp).leftEye (extractFaceTransform kp).rightEye
    exact Real.sqrt_nonneg _

/-- C2 witness: a 474-point sequence takes the iris branch. -/
theorem extractFaceTransform_eye_selection_witness :
    473 < (List.replicate 474 pt0).length
    ∧ ((extractFaceTransform (List.replicate 474 pt0)).leftEye
          = (List.replicate 474 pt0).getD LM.LEFT_IRIS pt0
      ∧ (extractFaceTransform (List.replicate 474 pt0)).rightEye
          = (List.replicate 474 pt0).getD LM.RIGHT_IRIS pt0) :=
  ⟨by rw [List.length_replicate]; norm_num,
   (extractFaceTransform_eye_selection (List.replicate 474 pt0)).1.1
     (by rw [List.length_replicate]; norm_num)⟩

/-- C3: the first `applySmoothing` call after (re)initialization (empty
smoothing state) returns the raw scalar fields unchanged; every subsequent
call updates each persisted scalar field by `s + (raw - s) * 0.35` with the
fixed factor `smoothingFactor = 0.35`; and the keypoints of the returned
descriptor are always the latest raw keypoints. -/
theorem applySmoothing_seed_and_update (a : ℝ) (raw : FaceTransform) (s : SmoothState) :
    ((applySmoothing a none raw).2.center.x = raw.center.x
      ∧ (applySmoothing a none raw).2.center.y = raw.center.y
      ∧ (applySmoothing a none raw).2.eyeDistance = raw.eyeDistance
      ∧ (applySmoothing a none raw).2.roll = raw.roll
      ∧ (applySmoothing a none raw).2.yaw = raw.yaw)
    ∧ ((applySmoothing smoothingFactor (some s) raw).1.centerX
          = s.centerX + (raw.center.x - s.centerX) * 0.35
      ∧ (applySmoothing smoothingFactor (some s) raw).1.centerY
          = s.centerY + (raw.center.y - s.centerY) * 0.35
      ∧ (applySmoothing smoothingFactor (some s) raw).1.eyeDistance
          = s.eyeDistance + (raw.eyeDistance - s.eyeDistance) * 0.35
      ∧ (applySmoothing smoothingFactor (some s) raw).1.roll
          = s.roll + (raw.roll - s.roll) * 0.35
      ∧ (applySmoothing smoothingFactor (some s) raw).1.yaw
          = s.yaw + (raw.yaw - s.yaw) * 0.35)
    ∧ (applySmoothing a none raw).2.keypoints = raw.keypoints
    ∧ (applySmoothing a (some s) raw).2.keypoints = raw.keypoints :=
  ⟨⟨rfl, rfl, rfl, rfl, rfl⟩, ⟨rfl, rfl, rfl, rfl, rfl⟩, rfl, rfl⟩

/-- C5: the overlay-visibility decision is the pure predicate
`now - lastFaceTime < faceTimeoutMs` (together with a stored pose existing),
recomputed from the state each render tick; with the 500 ms timeout a pose
stamped at time 0 is still drawn at 499 ms and not drawn at all at 501 ms,
and whenever it is drawn the drawn pose is exactly the frozen stored
smoothed pose. -/
theorem overlay_visibility (st : AppState) (now : ℝ) (t : Smoothed) (s : Option SmoothState) :
    faceTimeoutMs = 500
    ∧ (overlayDrawn st now = some t
        ↔ st.lastRawTransform = some t ∧ now - st.lastFaceTime < faceTimeoutMs)
    ∧ overlayDrawn ⟨s, 0, some t⟩ 499 = some t
    ∧ overlayDrawn ⟨s, 0, some t⟩ 501 = none := by
  refine ⟨rfl, ?_, ?_, ?_⟩
  · unfold overlayDrawn
    rcases hst : st.lastRawTransform with _ | t2
    · simp [hst]
    · split_ifs with hcond <;> simp [hst, hcond, eq_comm]
  · show (if (499:ℝ) - 0 < faceTimeoutMs then some t else none) = some t
    rw [if_pos (by norm_num [faceTimeoutMs])]
  · show (if (501:ℝ) - 0 < faceTimeoutMs then some t else none) = none
    rw [if_neg (by norm_num [faceTimeoutMs])]

/-- C6: in `drawGlasses`, `baseScale = (eyeDistance / anchorSpan) *
scaleMultiplier` with `anchorSpan` the horizontal distance between the
anchors at 30% and 70% of the source-image width; for
`eyeDistance = 2 * anchorSpan` and multiplier 1 the base scale is exactly 2,
and doubling the multiplier doubles the base scale. -/
theorem drawGlasses_baseScale (t : Smoothed) (w h m : ℝ) (hw : 0 < w) :
    (drawGlasses t w h m).anchorSpan = (0.70 - 0.30) * w
    ∧ (drawGlasses t w h m).baseScale = t.eyeDistance / ((0.70 - 0.30) * w) * m
    ∧ (drawGlasses t w h (2 * m)).baseScale = 2 * (drawGlasses t w h m).baseScale
    ∧ (drawGlasses { t with eyeDistance := 2 * ((0.70 - 0.30) * w) } w h 1).baseScale = 2 := by
  have hspan : ((0.70 : ℝ) - 0.30) * w ≠ 0 := by
    have : (0 : ℝ) < ((0.70 : ℝ) - 0.30) * w := by nlinarith
    exact ne_of_gt this
  refine ⟨rfl, rfl, ?_, ?_⟩
  · show t.eyeDistance / ((ANCHOR_RIGHT_X - ANCHOR_LEFT_X) * w) * (2 * m)
        = 2 * (t.eyeDistance / ((ANCHOR_RIGHT_X - ANCHOR_LEFT_X) * w) * m)
    ring
  · show 2 * ((0.70 - 0.30) * w) / ((ANCHOR_RIGHT_X - ANCHOR_LEFT_X) * w) * 1 = 2
    rw [mul_one, ANCHOR_RIGHT_X, ANCHOR_LEFT_X, mul_div_assoc, div_self hspan, mul_one]

/-- C6 witness: the base-scale laws instantiated at a 100-pixel-wide source
image. -/
theorem drawGlasses_baseScale_witness :
    (0 : ℝ) < 100
    ∧ ((drawGlasses ⟨pt0, 80, 0, 0, []⟩ 100 40 1).anchorSpan = (0.70 - 0.30) * 100
      ∧ (drawGlasses ⟨pt0, 80, 0, 0, []⟩ 100 40 1).baseScale
          = (80 : ℝ) / ((0.70 - 0.30) * 100) * 1
      ∧ (drawGlasses ⟨pt0, 80, 0, 0, []⟩ 100 40 (2 * 1)).baseScale
          = 2 * (drawGlasses ⟨pt0, 80, 0, 0, []⟩ 100 40 1).baseScale
      ∧ (drawGlasses ⟨pt0, 2 * ((0.70 - 0.30) * 100), 0, 0, []⟩ 100 40 1).baseScale = 2) :=
  ⟨by norm_num, drawGlasses_baseScale ⟨pt0, 80, 0, 0, []⟩ 100 40 1 (by norm_num)⟩

/-- C7: the per-half scale factors of `drawGlasses` are exactly
`1 ± yaw * 0.40` for the widths and `1 ± yaw * 0.12` for the heights; at
yaw 0.5 the left and right width scales are 1.20 and 0.80, and at yaw 0
both halves receive identical scale factors. -/
theorem drawGlasses_half_scales (t : Smoothed) (w h m : ℝ) :
    ((drawGlasses t w h m).lWidthScale = 1 + t.yaw * 0.40
      ∧ (drawGlasses t w h m).rWidthScale = 1 - t.yaw * 0.40
      ∧ (drawGlasses t w h m).lHeightScale = 1 + t.yaw * 0.12
      ∧ (drawGlasses t w h m).rHeightScale = 1 - t.yaw * 0.12)
    ∧ ((drawGlasses { t with yaw := 0.5 } w h m).lWidthScale = 1.20
      ∧ (drawGlasses { t with yaw := 0.5 } w h m).rWidthScale = 0.80)
    ∧ ((drawGlasses { t with yaw := 0 } w h m).lWidthScale
          = (drawGlasses { t with yaw := 0 } w h m).rWidthScale
      ∧ (drawGlasses { t with yaw := 0 } w h m).lHeightScale
          = (drawGlasses { t with yaw := 0 } w h m).rHeightScale) := by
  refine ⟨⟨rfl, rfl, rfl, rfl⟩, ⟨?_, ?_⟩, ?_, ?_⟩
  · show (1 : ℝ) + 0.5 * YAW_WIDTH_FACTOR = 1.20
    norm_num [YAW_WIDTH_FACTOR]
  · show (1 : ℝ) - 0.5 * YAW_WIDTH_FACTOR = 0.80
    norm_num [YAW_WIDTH_FACTOR]
  · show (1 : ℝ) + 0 * YAW_WIDTH_FACTOR = 1 - 0 * YAW_WIDTH_FACTOR
    ring
  · show (1 : ℝ) + 0 * YAW_HEIGHT_FACTOR = 1 - 0 * YAW_HEIGHT_FACTOR
    ring

/-- C9: a detection attempt with the `none` outcome leaves the whole
tracking state (in particular `lastFaceTime` and the smoothing state)
unchanged, hence also the overlay-visibility decision at any later time; a
successful detection runs the smoother and stamps `lastFaceTime` with the
current time. -/
theorem runDetection_none_vs_success (st : AppState) (kp : List Pt) (now now2 : ℝ) :
    runDetectionUpdate st none now = st
    ∧ (runDetectionUpdate st (some kp) now).lastFaceTime = now
    ∧ (runDetectionUpdate st (some kp) now).smooth
        = some (applySmoothing smoothingFactor st.smooth (extractFaceTransform kp)).1
    ∧ (runDetectionUpdate st (some kp) now).lastRawTransform
        = some (applySmoothing smoothingFactor st.smooth (extractFaceTransform kp)).2
    ∧ overlayDrawn (runDetectionUpdate st none now) now2 = overlayDrawn st now2 :=
  ⟨rfl, rfl, rfl, rfl, rfl⟩

/-- A sequence contracted by a fixed factor in [0, 1) at every step has
absolute values that never increase and tend to zero. -/
theorem geom_decay (c : ℝ) (hc0 : 0 ≤ c) (hc1 : c < 1) (u : ℕ → ℝ)
    (hu : ∀ n, u (n + 1) = c * u n) :
    (∀ n, |u (n + 1)| ≤ |u n|) ∧
      Filter.Tendsto (fun n => |u n|) Filter.atTop (nhds 0) := by
  have habs : ∀ n, |u n| = c ^ n * |u 0| := by
    intro n
    induction n with
    | zero => simp
    | succ k ihk => rw [hu k, abs_mul, abs_of_nonneg hc0, ihk, pow_succ]; ring
  constructor
  · intro n
    rw [hu n, abs_mul, abs_of_nonneg hc0]
    exact mul_le_of_le_one_left (abs_nonneg _) (le_of_lt hc1)
  · have hfun : (fun n => |u n|) = fun n => c ^ n * |u 0| := funext habs
    rw [hfun]
    simpa using (tendsto_pow_atTop_nhds_zero_of_lt_one hc0 hc1).mul_const |u 0|

/-- Each persisted scalar extracted by `g` contracts toward the constant
raw value `r` by the factor `1 - a` on every further smoothing call. -/
theorem smoothIter_field_decay (a : ℝ) (raw : FaceTransform) (s0 : SmoothState)
    (h1 : 0 < a) (h2 : a ≤ 1) (g : SmoothState → ℝ) (r : ℝ)
    (hg : ∀ s : SmoothState, g ((applySmoothing a (some s) raw).1) = lerp (g s) r a) :
    (∀ n, |g (smoothIter a raw s0 (n + 1)) - r| ≤ |g (smoothIter a raw s0 n) - r|)
    ∧ Filter.Tendsto (fun n => |g (smoothIter a raw s0 n) - r|) Filter.atTop (nhds 0) := by
  refine geom_decay (1 - a) (by linarith) (by linarith)
      (fun n => g (smoothIter a raw s0 n) - r) (fun n => ?_)
  show g ((applySmoothing a (some (smoothIter a raw s0 n)) raw).1) - r
      = (1 - a) * (g (smoothIter a raw s0 n) - r)
  rw [hg]
  unfold lerp
  ring

/-- C4: feeding the same raw pose repeatedly to the smoother after seeding,
with any fixed blend factor in (0, 1], makes the distance of every persisted
scalar field (centre coordinates, eye distance, roll, yaw) from the raw
value non-increasing in the number of calls and convergent to zero. -/
theorem smoothing_convergence (a : ℝ) (raw : FaceTransform) (s0 : SmoothState)
    (h1 : 0 < a) (h2 : a ≤ 1) :
    ((∀ n, |(smoothIter a raw s0 (n + 1)).centerX - raw.center.x|
        ≤ |(smoothIter a raw s0 n).centerX - raw.center.x|)
      ∧ Filter.Tendsto (fun n => |(smoothIter a raw s0 n).centerX - raw.center.x|)
          Filter.atTop (nhds 0))
    ∧ ((∀ n, |(smoothIter a raw s0 (n + 1)).centerY - raw.center.y|
        ≤ |(smoothIter a raw s0 n).centerY - raw.center.y|)
      ∧ Filter.Tendsto (fun n => |(smoothIter a raw s0 n).centerY - raw.center.y|)
          Filter.atTop (nhds 0))
    ∧ ((∀ n, |(smoothIter a raw s0 (n + 1)).eyeDistance - raw.eyeDistance|
        ≤ |(smoothIter a raw s0 n).eyeDistance - raw.eyeDistance|)
      ∧ Filter.Tendsto (fun n => |(smoothIter a raw s0 n).eyeDistance - raw.eyeDistance|)
          Filter.atTop (nhds 0))
    ∧ ((∀ n, |(smoothIter a raw s0 (n + 1)).roll - raw.roll|
        ≤ |(smoothIter a raw s0 n).roll - raw.roll|)
      ∧ Filter.Tendsto (fun n => |(smoothIter a raw s0 n).roll - raw.roll|)
          Filter.atTop (nhds 0))
    ∧ ((∀ n, |(smoothIter a raw s0 (n + 1)).yaw - raw.yaw|
        ≤ |(smoothIter a raw s0 n).yaw - raw.yaw|)
      ∧ Filter.Tendsto (fun n => |(smoothIter a raw s0 n).yaw - raw.yaw|)
          Filter.atTop (nhds 0)) :=
  ⟨smoothIter_field_decay a raw s0 h1 h2 (fun s => s.centerX) raw.center.x (fun _ => rfl),
   smoothIter_field_decay a raw s0 h1 h2 (fun s => s.centerY) raw.center.y (fun _ => rfl),
   smoothIter_field_decay a raw s0 h1 h2 (fun s => s.eyeDistance) raw.eyeDistance (fun _ => rfl),
   smoothIter_field_decay a raw s0 h1 h2 (fun s => s.roll) raw.roll (fun _ => rfl),
   smoothIter_field_decay a raw s0 h1 h2 (fun s => s.yaw) raw.yaw (fun _ => rfl)⟩

/-- C4 witness: the convergence law instantiated at blend factor 1/2, a
concrete raw pose and a concrete seeded state, shown here for the yaw
field. -/
theorem smoothing_convergence_witness :
    ((0 : ℝ) < 1 / 2 ∧ (1 : ℝ) / 2 ≤ 1)
    ∧ ((∀ n, |(smoothIter (1 / 2) ⟨pt0, pt0, pt0, 0, 0, 0, []⟩ ⟨1, 0, 0, 0, 0, []⟩ (n + 1)).yaw
            - (⟨pt0, pt0, pt0, 0, 0, 0, []⟩ : FaceTransform).yaw|
        ≤ |(smoothIter (1 / 2) ⟨pt0, pt0, pt0, 0, 0, 0, []⟩ ⟨1, 0, 0, 0, 0, []⟩ n).yaw
            - (⟨pt0, pt0, pt0, 0, 0, 0, []⟩ : FaceTransform).yaw|)
      ∧ Filter.Tendsto
          (fun n => |(smoothIter (1 / 2) ⟨pt0, pt0, pt0, 0, 0, 0, []⟩ ⟨1, 0, 0, 0, 0, []⟩ n).yaw
            - (⟨pt0, pt0, pt0, 0, 0, 0, []⟩ : FaceTransform).yaw|)
          Filter.atTop (nhds 0)) :=
  ⟨⟨by norm_num, by norm_num⟩,
   (smoothing_convergence (1 / 2) ⟨pt0, pt0, pt0, 0, 0, 0, []⟩ ⟨1, 0, 0, 0, 0, []⟩
      (by norm_num) (by norm_num)).2.2.2.2⟩

/-- The clamp used by the extractor always lands in [-1, 1]. -/
theorem clamp_unit_mem (v : ℝ) : -1 ≤ clamp v (-1) 1 ∧ clamp v (-1) 1 ≤ 1 :=
  ⟨le_max_left _ _, max_le (by norm_num) (min_le_left _ _)⟩

/-- The extractor's yaw is definitionally a clamped value. -/
theorem extract_yaw_is_clamped (kp : List Pt) :
    ∃ v : ℝ, (extractFaceTransform kp).yaw = clamp v (-1) 1 :=
  ⟨_, rfl⟩

/-- Linear interpolation with a factor in [0, 1] between two values of an
interval stays in that interval. -/
theorem lerp_mem (x y t lo hi : ℝ) (hx1 : lo ≤ x) (hx2 : x ≤ hi) (hy1 : lo ≤ y)
    (hy2 : y ≤ hi) (ht1 : 0 ≤ t) (ht2 : t ≤ 1) :
    lo ≤ lerp x y t ∧ lerp x y t ≤ hi := by
  unfold lerp
  constructor <;> nlinarith

/-- Folding any sequence of raw transforms whose yaws lie in [-1, 1]
through the smoother keeps the persisted yaw in [-1, 1]. -/
theorem smoothFold_yaw_mem (a : ℝ) (h1 : 0 < a) (h2 : a ≤ 1) :
    ∀ (raws : List FaceTransform) (st : Option SmoothState),
      (∀ r ∈ raws, -1 ≤ r.yaw ∧ r.yaw ≤ 1) →
      (∀ s0 : SmoothState, st = some s0 → -1 ≤ s0.yaw ∧ s0.yaw ≤ 1) →
      ∀ s : SmoothState, smoothFold a st raws = some s → -1 ≤ s.yaw ∧ s.yaw ≤ 1 := by
  intro raws
  induction raws with
  | nil =>
      intro st _ hst s hs
      exact hst s hs
  | cons raw rest ih =>
      intro st hmem hst s hs
      have hmem2 : ∀ r ∈ rest, -1 ≤ r.yaw ∧ r.yaw ≤ 1 :=
        fun r hr => hmem r (List.mem_cons_of_mem _ hr)
      have hraw : -1 ≤ raw.yaw ∧ raw.yaw ≤ 1 := hmem raw (List.mem_cons_self _ _)
      have hstep : ∀ s0 : SmoothState,
          some (applySmoothing a st raw).1 = some s0 → -1 ≤ s0.yaw ∧ s0.yaw ≤ 1 := by
        intro s0 hval
        rw [Option.some_inj] at hval
        subst hval
        cases st with
        | none => exact hraw
        | some sp =>
            have hsp : -1 ≤ sp.yaw ∧ sp.yaw ≤ 1 := hst sp rfl
            show -1 ≤ lerp sp.yaw raw.yaw a ∧ lerp sp.yaw raw.yaw a ≤ 1
            exact lerp_mem sp.yaw raw.yaw a (-1) 1 hsp.1 hsp.2 hraw.1 hraw.2
              (le_of_lt h1) h2
      exact ih (some (applySmoothing a st raw).1) hmem2 hstep s hs

/-- C10: every pose descriptor has yaw in [-1, 1]: the extractor clamps its
output yaw, and the smoother (seeding with a raw value, then interpolating
with a factor in (0, 1]) preserves membership across every sequence of
smoothing calls even though it applies no clamp itself. -/
theorem yaw_always_in_unit_interval (a : ℝ) (h1 : 0 < a) (h2 : a ≤ 1) :
    (∀ kp : List Pt, -1 ≤ (extractFaceTransform kp).yaw ∧ (extractFaceTransform kp).yaw ≤ 1)
    ∧ (∀ (kps : List (List Pt)) (s : SmoothState),
        smoothFold a none (kps.map extractFaceTransform) = some s →
        -1 ≤ s.yaw ∧ s.yaw ≤ 1) := by
  have hext : ∀ kp : List Pt,
      -1 ≤ (extractFaceTransform kp).yaw ∧ (extractFaceTransform kp).yaw ≤ 1 := by
    intro kp
    obtain ⟨v, hv⟩ := extract_yaw_is_clamped kp
    rw [hv]
    exact clamp_unit_mem v
  refine ⟨hext, fun kps s hs => ?_⟩
  refine smoothFold_yaw_mem a h1 h2 (kps.map extractFaceTransform) none ?_ ?_ s hs
  · intro r hr
    obtain ⟨kp, _, hkp⟩ := List.mem_map.mp hr
    exact hkp ▸ hext kp
  · intro s0 hval
    exact absurd hval (by simp)

/-- C10 witness: the yaw invariant instantiated at blend factor 1/2. -/
theorem yaw_always_in_unit_interval_witness :
    ((0 : ℝ) < 1 / 2 ∧ (1 : ℝ) / 2 ≤ 1)
    ∧ ((∀ kp : List Pt,
          -1 ≤ (extractFaceTransform kp).yaw ∧ (extractFaceTransform kp).yaw ≤ 1)
      ∧ (∀ (kps : List (List Pt)) (s : SmoothState),
          smoothFold (1 / 2) none (kps.map extractFaceTransform) = some s →
          -1 ≤ s.yaw ∧ s.yaw ≤ 1)) :=
  ⟨⟨by norm_num, by norm_num⟩,
   yaw_always_in_unit_interval (1 / 2) (by norm_num) (by norm_num)⟩

/-- Every scheduler step preserves the mutual-exclusion invariant. -/
theorem mstep_mutex (m : DetectMachine) (e : MEvent) (hm : MutexInv m) :
    MutexInv (mstep m e) := by
  obtain ⟨h1, h2⟩ := hm
  cases e with
  | tick =>
      by_cases hr : m.running = true
      · simp only [mstep, if_pos hr]
        by_cases hNth : (m.frameCount + 1) % detectionInterval = 0
        · rw [if_pos hNth]
          by_cases hg : (m.running && m.modelReady && !m.detecting) = true
          · rw [if_pos hg]
            have hdet : m.detecting = false := by
              simp only [Bool.and_eq_true, Bool.not_eq_true'] at hg
              exact hg.2
            have hif : m.inFlight = 0 := by
              have hne : m.inFlight ≠ 1 := fun hcon =>
                by rw [hdet] at h2; exact Bool.false_ne_true (h2.mpr hcon)
              omega
            exact ⟨by simp [hif], by simp [hif]⟩
          · rw [if_neg hg]
            exact ⟨h1, h2⟩
        · rw [if_neg hNth]
          exact ⟨h1, h2⟩
      · simp only [mstep, if_neg hr]
        exact ⟨h1, h2⟩
  | complete =>
      by_cases hd : m.detecting = true
      · have hif : m.inFlight = 1 := h2.mp hd
        simp only [mstep, if_pos hd]
        exact ⟨by simp [hif], by simp [hif]⟩
      · simp only [mstep, if_neg hd]
        exact ⟨h1, h2⟩
  | ready => exact ⟨h1, h2⟩
  | start => exact ⟨h1, h2⟩
  | stop => exact ⟨h1, h2⟩

/-- The mutual-exclusion invariant holds after every event sequence from
the initial state. -/
theorem mrun_mutex (es : List MEvent) : MutexInv (mrun minit es) := by
  have hgen : ∀ (l : List MEvent) (m : DetectMachine), MutexInv m → MutexInv (mrun m l) := by
    intro l
    induction l with
    | nil => exact fun m hm => hm
    | cons e rest ih => exact fun m hm => ih (mstep m e) (mstep_mutex m e hm)
  exact hgen es minit (by decide)

/-- C8: along every execution at most one detection call is in flight; a
tick changes the number of in-flight detections only by starting one, and
only on a tick whose frame count hits the throttling window while no
detection is outstanding; a tick arriving while `detecting` is set starts
nothing (the request is skipped, never queued). -/
theorem detection_mutual_exclusion (es : List MEvent) :
    (mrun minit es).inFlight ≤ 1
    ∧ (∀ m : DetectMachine, (mstep m MEvent.tick).inFlight ≠ m.inFlight →
        (m.frameCount + 1) % detectionInterval = 0 ∧ m.detecting = false
          ∧ (mstep m MEvent.tick).inFlight = m.inFlight + 1)
    ∧ (∀ m : DetectMachine, m.detecting = true →
        (mstep m MEvent.tick).inFlight = m.inFlight) := by
  refine ⟨(mrun_mutex es).1, fun m hne => ?_, fun m hd => ?_⟩
  · by_cases hr : m.running = true
    · simp only [mstep, if_pos hr] at hne ⊢
      by_cases hNth : (m.frameCount + 1) % detectionInterval = 0
      · rw [if_pos hNth] at hne ⊢
        by_cases hg : (m.running && m.modelReady && !m.detecting) = true
        · rw [if_pos hg] at hne ⊢
          have hdet : m.detecting = false := by
            simp only [Bool.and_eq_true, Bool.not_eq_true'] at hg
            exact hg.2
          exact ⟨hNth, hdet, rfl⟩
        · rw [if_neg hg] at hne
          exact absurd rfl hne
      · rw [if_neg hNth] at hne
        exact absurd rfl hne
    · simp only [mstep, if_neg hr] at hne
      exact absurd rfl hne
  · by_cases hr : m.running = true
    · simp only [mstep, if_pos hr]
      by_cases hNth : (m.frameCount + 1) % detectionInterval = 0
      · rw [if_pos hNth]
        have hg : (m.running && m.modelReady && !m.detecting) = false := by
          simp [hd]
        rw [if_neg (by simp [hg])]
      · rw [if_neg hNth]
    · simp only [mstep, if_neg hr]

/-- C8 witness: from a ready, running machine with one frame already
counted and nothing in flight, the next tick starts exactly one
detection. -/
theorem detection_mutual_exclusion_witness :
    (mstep ⟨true, true, false, 1, 0⟩ MEvent.tick).inFlight
        ≠ (⟨true, true, false, 1, 0⟩ : DetectMachine).inFlight
    ∧ (((⟨true, true, false, 1, 0⟩ : DetectMachine).frameCount + 1) % detectionInterval = 0
      ∧ (⟨true, true, false, 1, 0⟩ : DetectMachine).detecting = false
      ∧ (mstep ⟨true, true, false, 1, 0⟩ MEvent.tick).inFlight
          = (⟨true, true, false, 1, 0⟩ : DetectMachine).inFlight + 1) :=
  ⟨by decide, (detection_mutual_exclusion []).2.1 ⟨true, true, false, 1, 0⟩ (by decide)⟩

end VirtualTryon
